import Mathlib

/-!
Shallow embedding of the multi-source football match reconciliation core
(src/data_collection/data_merger.py) and the temporal feature engine
(src/feature_engineering/temporal_features.py).

Conventions of the embedding:
* Python strings are Lean `String`; the repository only lowercases ASCII
  letters, which matches `String.toLower`.
* Python floats are modeled as `Rat`; the float comparison
  `similarity > 0.85` is modeled as the exact rational comparison
  `40 * M > 17 * T` (the rationals involved have denominators far smaller
  than the double-precision gap around 0.85, so the two agree).
* Pandas NaN / NaT cells behave as missing everywhere they are consumed, so
  a missing value is simply an absent key in an association list.
* Dates are modeled as already-parsed integer day numbers; an unparseable
  date (coerced to NaT by pandas) is `none`.
-/

namespace FootballML

/-! ### TeamNameNormalizer (data_merger.py lines 208-291) -/

/-! Character-list implementations of the Python string primitives used by the
source (strip, lower, startswith, endswith, slicing). The byte-position based
`String` primitives of the Lean core library do not reduce inside the kernel,
so the embedding works on `String.data` instead; the semantics is unchanged
because all of these Python operations are per-character. -/

/-- Python str.strip (both ends, whitespace). -/
def strTrim (s : String) : String :=
  ⟨((s.data.dropWhile Char.isWhitespace).reverse.dropWhile Char.isWhitespace).reverse⟩

/-- Python str.lower (ASCII letters, the only cased characters appearing here). -/
def strLower (s : String) : String := ⟨s.data.map Char.toLower⟩

/-- Whether `p` is a prefix of `s`, on character lists. -/
def charsPrefix : List Char → List Char → Bool
  | [], _ => true
  | _ :: _, [] => false
  | p :: ps, c :: cs => p = c && charsPrefix ps cs

/-- Python s.startswith(p). -/
def strStarts (s p : String) : Bool := charsPrefix p.data s.data

/-- Python s.endswith(p). -/
def strEnds (s p : String) : Bool := charsPrefix p.data.reverse s.data.reverse

/-- Python s[n:] (drop the first `n` characters). -/
def strDrop (s : String) (n : Nat) : String := ⟨s.data.drop n⟩

/-- Python s[:-n] (drop the last `n` characters). -/
def strDropRight (s : String) (n : Nat) : String := ⟨(s.data.reverse.drop n).reverse⟩

/-- Python len(s) in characters. -/
def strLen (s : String) : Nat := s.data.length

/-- Lexicographic strict order on character lists by code point
(Python string comparison). -/
def charsLt : List Char → List Char → Bool
  | _, [] => false
  | [], _ :: _ => true
  | a :: as, b :: bs => a.toNat < b.toNat || (a.toNat = b.toNat && charsLt as bs)

/-- Python a < b on strings. -/
def strLt (a b : String) : Bool := charsLt a.data b.data

/-! Exact rational arithmetic written through `mkRat` so that it reduces in
the kernel (the library operations on `Rat` do not); these are the exact
values of the corresponding Python float operations on the magnitudes
appearing here. -/

/-- Exact rational addition. -/
def ratAdd (a b : Rat) : Rat := mkRat (a.num * b.den + b.num * a.den) (a.den * b.den)

/-- Exact rational subtraction. -/
def ratSub (a b : Rat) : Rat := mkRat (a.num * b.den - b.num * a.den) (a.den * b.den)

/-- Exact division of a rational by a positive natural. -/
def ratDivNat (a : Rat) (n : Nat) : Rat := mkRat a.num (a.den * n)

/-- The rational value of an integer. -/
def intToRat (x : Int) : Rat := mkRat x 1

/-- The manual team-name alias table from `TeamNameNormalizer._load_mappings`,
in Python dict insertion order. -/
def mappings : List (String × List String) := [
  ("Manchester United", ["Man United", "Manchester Utd", "Man Utd"]),
  ("Manchester City", ["Man City", "Manchester C"]),
  ("Tottenham Hotspur", ["Tottenham", "Spurs"]),
  ("West Ham United", ["West Ham", "West Ham Utd"]),
  ("Newcastle United", ["Newcastle", "Newcastle Utd"]),
  ("Brighton & Hove Albion", ["Brighton", "Brighton Hove"]),
  ("Wolverhampton Wanderers", ["Wolves", "Wolverhampton"]),
  ("AC Milan", ["Milan"]),
  ("Inter Milan", ["Inter"]),
  ("AS Roma", ["Roma"]),
  ("SS Lazio", ["Lazio"]),
  ("Atlético Madrid", ["Atletico Madrid", "Atletico"]),
  ("Athletic Bilbao", ["Athletic Club"]),
  ("Paris Saint-Germain", ["PSG", "Paris SG"]),
  ("Bayern Munich", ["Bayern München", "Bayern"]),
  ("Borussia Dortmund", ["Dortmund"]),
  ("Juventus", ["Juve"]),
  ("Napoli", ["SSC Napoli"])]

/-- `TeamNameNormalizer._build_alias_dict`: the inverse dictionary
lowercased-alias-or-standard -> standard, in insertion order (the lowercased
keys are pairwise distinct, so first-match lookup equals Python dict lookup). -/
def aliasToStandard : List (String × String) :=
  mappings.foldl (fun acc m =>
    acc ++ [(strLower m.1, m.1)] ++ m.2.map (fun a => (strLower a, m.1))) []

/-- Prefix tokens stripped by `normalize` (each at most once, in this order). -/
def prefixTokens : List String := ["fc ", "afc ", "ssc ", "as ", "fk ", "sc ", "rc ", "ud "]

/-- Suffix tokens stripped by `normalize` (each at most once, in this order). -/
def suffixTokens : List String := [" fc", " afc", " ssc", " as", " cf"]

/-- Length of the common prefix of two character lists
(the extension step of difflib find_longest_match). -/
def commonPrefixLen : List Char → List Char → Nat
  | a :: as, b :: bs => if a = b then commonPrefixLen as bs + 1 else 0
  | _, _ => 0

/-- difflib SequenceMatcher.find_longest_match on short strings (no autojunk):
the longest contiguous common block, ties broken by the earliest start in `a`
and then the earliest start in `b`; returns (start in a, start in b, size). -/
def longestMatch (a b : List Char) : Nat × Nat × Nat :=
  (List.range a.length).foldl (fun best i =>
    (List.range b.length).foldl (fun best j =>
      let k := commonPrefixLen (a.drop i) (b.drop j)
      if best.2.2 < k then (i, j, k) else best) best) (0, 0, 0)

/-- Total size of the difflib matching blocks (Ratcliff-Obershelp recursion:
take the longest block, recurse on the pieces to its left and right).
Structured with explicit fuel; `a.length + b.length` fuel always suffices
because each recursive call strictly shrinks the total length. -/
def matchTotal : Nat → List Char → List Char → Nat
  | 0, _, _ => 0
  | fuel + 1, a, b =>
    let m := longestMatch a b
    if m.2.2 = 0 then 0
    else
      matchTotal fuel (a.take m.1) (b.take m.2.1) + m.2.2 +
        matchTotal fuel (a.drop (m.1 + m.2.2)) (b.drop (m.2.1 + m.2.2))

/-- `TeamNameNormalizer._similarity(a, b) > 0.85`, i.e.
`2 * M / (len a + len b) > 0.85`, as the exact test `40 * M > 17 * T`. -/
def similarityGT085 (a b : String) : Bool :=
  17 * (strLen a + strLen b) < 40 * matchTotal (strLen a + strLen b) a.data b.data

/-- Python str.title for the character sets reached here: uppercase a letter
that does not follow a letter, lowercase a letter that does. -/
def titleCaseGo : List Char → Bool → List Char
  | [], _ => []
  | c :: cs, prevCased =>
    (if c.isAlpha then (if prevCased then c.toLower else c.toUpper) else c) ::
      titleCaseGo cs c.isAlpha

/-- Python str.title (ASCII letters). -/
def titleCase (s : String) : String := ⟨titleCaseGo s.data false⟩

/-- One pass of the prefix-stripping loop of `normalize`. -/
def stripPrefixTokens (s : String) : String :=
  prefixTokens.foldl (fun t p => if strStarts t p then strDrop t (strLen p) else t) s

/-- One pass of the suffix-stripping loop of `normalize`. -/
def stripSuffixTokens (s : String) : String :=
  suffixTokens.foldl (fun t p => if strEnds t p then strDropRight t (strLen p) else t) s

/-- `TeamNameNormalizer.normalize`: exact alias lookup on the stripped
lowercased name; otherwise strip known prefix/suffix tokens, fuzzy-match
against every table entry (first standard with a name of similarity above
0.85 wins), and fall back to title-casing the stripped string. -/
def normalize (teamName : String) : String :=
  if teamName = "" then ""
  else
    let teamLower := strLower (strTrim teamName)
    match aliasToStandard.lookup teamLower with
    | some std => std
    | none =>
      let normalized := stripSuffixTokens (stripPrefixTokens teamLower)
      match mappings.find? (fun m =>
        (strLower m.1 :: m.2.map strLower).any
          (fun nm => similarityGT085 normalized nm)) with
      | some m => m.1
      | none => titleCase normalized

/-! ### DataMerger (data_merger.py lines 11-205)

Records are free-form mappings, modeled as association lists from field name
to value. A pandas cell that is NaN (or a column that a record does not have)
is consumed identically everywhere (pd.notna, row.get, dict membership), so
both are modeled as an absent key. Values are strings, ints, or floats
(floats as `Rat`); score fields valued by non-numeric strings, and
string-encoded dates, are outside the model. -/

/-- A field value of a match record. -/
inductive Val where
  | s (x : String)
  | i (x : Int)
  | q (x : Rat)
deriving DecidableEq, Repr

/-- A match record: field name to value, in insertion order. -/
abbrev Fields := List (String × Val)

/-- A record tagged with its source id (the `_source` column). -/
structure Row where
  source : String
  fields : Fields
deriving DecidableEq, Repr

/-- Python `pd.notna(value) and value not in [None, "", []]`. -/
def isPresent : Val → Bool
  | .s "" => false
  | _ => true

/-- Whether the dict `m` has key `k` (Python `column in merged`). -/
def hasKey (m : Fields) (k : String) : Bool := (m.lookup k).isSome

/-- Python dict assignment `m[k] = v`: overwrite in place, append if new. -/
def setField (m : Fields) (k : String) (v : Val) : Fields :=
  if hasKey m k then m.map (fun p => if p.1 = k then (k, v) else p)
  else m ++ [(k, v)]

/-- Whether `pat` occurs as a substring (Python `pat in s`), on char lists. -/
def charsSubstr (pat : List Char) : List Char → Bool
  | [] => pat.isEmpty
  | c :: cs => charsPrefix pat (c :: cs) || charsSubstr pat cs

/-- Python `pat in s` for strings. -/
def strSubstr (s pat : String) : Bool := charsSubstr pat.data s.data

/-- The core identity fields of `_merge_match_group`. -/
def identityFields : List String := ["match_id", "date", "home_team", "away_team"]

/-- The statistics fields of `_merge_match_group`. -/
def statFields : List String := ["home_xg", "away_xg", "home_shots", "away_shots"]

/-- The per-column update of `_merge_match_group` (lines 151-169): skip
missing/empty values; identity fields are (re)assigned by every record that
has them; statistics fields prefer understat for xG; all other fields keep
the first value seen. -/
def mergeField (m : Fields) (src : String) (k : String) (v : Val) : Fields :=
  if ¬ isPresent v then m
  else if ¬ hasKey m k ∨ k ∈ identityFields then setField m k v
  else if k ∈ statFields then
    if strSubstr src "understat" && strSubstr (strLower k) "xg" then setField m k v
    else if ¬ hasKey m k then setField m k v
    else m
  else if ¬ hasKey m k then setField m k v
  else m

/-- Fold one record into the merged dict; columns whose name starts with an
underscore are skipped (line 153). Per-row column order is irrelevant here
because each column only touches its own key. -/
def mergeRow (m : Fields) (r : Row) : Fields :=
  r.fields.foldl (fun acc kv =>
    if strStarts kv.1 "_" then acc else mergeField acc r.source kv.1 kv.2) m

/-- Source priority of `_merge_match_group` (lines 135-144): the dict literal
gives the primary source rank 0 (overwriting its default rank when it is one
of the three known names), known sources their fixed rank, everything else
the sentinel 999. -/
def sourcePriority (primary src : String) : Nat :=
  if src = primary then 0
  else if src = "football_data" then 1
  else if src = "understat" then 2
  else if src = "sofascore" then 3
  else 999

/-- Stable insertion into a list sorted by ascending priority (a record is
placed before the first strictly-lower-priority record, after equals). -/
def insertByPriority (primary : String) (r : Row) : List Row → List Row
  | [] => [r]
  | x :: xs =>
    if sourcePriority primary r.source ≤ sourcePriority primary x.source then r :: x :: xs
    else x :: insertByPriority primary r xs

/-- Stable sort by ascending source priority (`sort_values` on `_priority`). -/
def sortByPriority (primary : String) (rows : List Row) : List Row :=
  rows.foldr (insertByPriority primary) []

/-- Numeric view of a value for arithmetic; a string raises in Python
(string-valued scores are outside the model). -/
def numQ : Val → Option Rat
  | .i x => some (intToRat x)
  | .q x => some x
  | .s _ => none

/-- Python addition preserving int-ness. -/
def numAdd : Val → Val → Option Val
  | .i x, .i y => some (.i (x + y))
  | .i x, .q y => some (.q (ratAdd (intToRat x) y))
  | .q x, .i y => some (.q (ratAdd x (intToRat y)))
  | .q x, .q y => some (.q (ratAdd x y))
  | _, _ => none

/-- Python subtraction preserving int-ness. -/
def numSub : Val → Val → Option Val
  | .i x, .i y => some (.i (x - y))
  | .i x, .q y => some (.q (ratSub (intToRat x) y))
  | .q x, .i y => some (.q (ratSub x (intToRat y)))
  | .q x, .q y => some (.q (ratSub x y))
  | _, _ => none

/-- The xG part of `_calculate_derived_fields` (lines 195-202): if both xg
fields are present and numerically convertible, add total_xg and
xg_difference; a conversion failure leaves the record as is. -/
def xgDerived (m : Fields) : Fields :=
  match m.lookup "home_xg", m.lookup "away_xg" with
  | some hx, some ax =>
    match numQ hx, numQ ax with
    | some h, some a =>
      setField (setField m "total_xg" (.q (ratAdd h a))) "xg_difference" (.q (ratSub h a))
    | _, _ => m
  | _, _ => m

/-- `_calculate_derived_fields` (lines 176-205): when both scores are present
and numeric, add total_goals, goal_difference and result (H/A/D); a numeric
failure on the scores aborts the whole try block, skipping the xg part too;
absent scores skip only the score-derived fields. The all-integer case is
split out so that Python int arithmetic/comparison is mirrored on Int
(the second arm covers float-valued scores; the two agree where both
apply). -/
def calcDerivedFields (m : Fields) : Fields :=
  match m.lookup "home_score", m.lookup "away_score" with
  | some (.i h), some (.i a) =>
    xgDerived (setField (setField (setField m "total_goals" (.i (h + a)))
      "goal_difference" (.i (h - a)))
      "result" (.s (if a < h then "H" else if h < a then "A" else "D")))
  | some h, some a =>
    match numAdd h a, numSub h a, numQ h, numQ a with
    | some tg, some gd, some hq, some aq =>
      xgDerived (setField (setField (setField m "total_goals" tg)
        "goal_difference" gd)
        "result" (.s (if aq < hq then "H" else if hq < aq then "A" else "D")))
    | _, _, _, _ => m
  | _, _ => xgDerived m

/-- `DataMerger._merge_match_group`: sort the group by source priority, fold
the records field by field, then compute derived fields. -/
def mergeMatchGroup (group : List Row) (primary : String) : Fields :=
  calcDerivedFields ((sortByPriority primary group).foldl mergeRow [])

/-- Day-granularity date bucket of `_create_match_key`: a missing (or
pandas-coerced NaT) date maps to the sentinel "unknown"; a parsed date is
rendered at day resolution (modeled as the decimal numeral of the day
number). -/
def dateBucket : Option Int → String
  | none => "unknown"
  | some d => toString d

/-- `DataMerger._create_match_key` (lines 107-123): day bucket, then the two
normalized team names sorted lexicographically (Python `sorted`), joined as
"date_team0_vs_team1". -/
def createMatchKey (date : Option Int) (homeTeam awayTeam : String) : String :=
  let dateStr := dateBucket date
  let homeNorm := normalize homeTeam
  let awayNorm := normalize awayTeam
  let t := if strLt awayNorm homeNorm then (awayNorm, homeNorm) else (homeNorm, awayNorm)
  dateStr ++ "_" ++ t.1 ++ "_vs_" ++ t.2

/-- `_normalize_dataframe` plus the later overwrite of the `_source` and
`_match_key` columns: normalize team-name fields, keep only parsed dates
(an unparseable date is NaT, which behaves as missing everywhere downstream),
and drop any input `_source`/`_match_key` columns (they are overwritten by
the pipeline and popped before output). -/
def prepRecord (fs : Fields) : Fields :=
  (fs.filterMap (fun kv =>
    if kv.1 = "home_team" ∨ kv.1 = "away_team" then
      match kv.2 with
      | .s x => some (kv.1, .s (normalize x))
      | v => some (kv.1, v)
    else if kv.1 = "date" then
      match kv.2 with
      | .i d => some (kv.1, .i d)
      | _ => none
    else some kv)).filter (fun kv => ¬ (kv.1 = "_source" ∨ kv.1 = "_match_key"))

/-- The date passed to `_create_match_key` for a prepared row. -/
def rowDate (r : Row) : Option Int :=
  match r.fields.lookup "date" with
  | some (.i d) => some d
  | _ => none

/-- A team-name argument of `_create_match_key` for a prepared row (a missing
cell normalizes to the empty string). -/
def rowTeam (r : Row) (k : String) : String :=
  match r.fields.lookup k with
  | some (.s x) => x
  | _ => ""

/-- The `_match_key` of a prepared row. -/
def rowKey (r : Row) : String :=
  createMatchKey (rowDate r) (rowTeam r "home_team") (rowTeam r "away_team")

/-- The positional source tag of `merge_matches` (line 40 and 52). -/
def sourceName (idx : Nat) : String :=
  (["football_data", "understat", "sofascore"].getD idx ("source_" ++ toString idx))

/-- First-occurrence deduplication, fuel-structured so that it reduces in
the kernel; `l.length` fuel always suffices because filtering never grows
the list. -/
def dedupFirstGo {α : Type} [DecidableEq α] : Nat → List α → List α
  | 0, _ => []
  | _, [] => []
  | fuel + 1, x :: xs => x :: dedupFirstGo fuel (xs.filter (fun y => y ≠ x))

/-- First-occurrence deduplication (pandas unique / dict key order). -/
def dedupFirst {α : Type} [DecidableEq α] (l : List α) : List α :=
  dedupFirstGo l.length l

/-- Stable insertion into an ascending list of strings. -/
def insertStr (s : String) : List String → List String
  | [] => [s]
  | x :: xs => if strLt x s then x :: insertStr s xs else s :: x :: xs

/-- Ascending sort of strings (pandas groupby sorts group keys). -/
def sortStr (l : List String) : List String := l.foldr insertStr []

/-- Lines 38-53 of merge_matches: skip empty source lists, normalize the
records of the remaining ones and tag them with their positional source
name. -/
def tagSources (sources : List (List Fields)) : List (List Row) :=
  sources.enum.filterMap (fun p =>
    if p.2.isEmpty then none
    else some (p.2.map (fun fs => Row.mk (sourceName p.1) (prepRecord fs))))

/-- Lines 62-87 of merge_matches: group the combined rows by match key
(groups ordered by key as pandas groupby does, rows inside a group in
concatenation order), merge multi-record groups, pass single-record groups
through (the bookkeeping columns `_source`/`_match_key` live outside
`Row.fields` and are therefore already absent). -/
def mergeGrouped (combined : List Row) (primary : String) : List Fields :=
  (sortStr (dedupFirst (combined.map rowKey))).map (fun k =>
    if 1 < (combined.filter (fun r => rowKey r = k)).length
    then mergeMatchGroup (combined.filter (fun r => rowKey r = k)) primary
    else ((combined.filter (fun r => rowKey r = k)).headD (Row.mk "" [])).fields)

/-- `DataMerger.merge_matches` (lines 22-89). -/
def mergeMatches (sources : List (List Fields)) (primary : String) : List Fields :=
  if sources.isEmpty then []
  else
    let dfs := tagSources sources
    if dfs.isEmpty then []
    else mergeGrouped dfs.flatten primary


/-! ### TemporalFeatureEngineer (temporal_features.py lines 10-120)

The feature engine consumes a dataframe of historical matches. A match is
modeled with always-present core columns (date, teams, scores) and optional
xG cells; whether the dataframe has a home_xg / away_xg column at all is the
corpus-level fact that some record supplies that key, and it governs both
the `"home_xg" in recent.columns` branch and the default of `match.get`. -/

/-- A historical match row of the feature-engine dataframe. -/
structure TMatch where
  date : Int
  home_team : String
  away_team : String
  home_score : Int
  away_score : Int
  home_xg : Option Rat
  away_xg : Option Rat
deriving DecidableEq, Repr

/-- A feature cell: a string, a number, or the NaN that numpy means give on
missing xG cells. -/
inductive TVal where
  | s (x : String)
  | q (x : Rat)
  | nan
deriving DecidableEq, Repr

/-- A feature row, field name to value in insertion order. -/
abbrev TRow := List (String × TVal)

/-- Whether the dataframe has a home_xg column: some record carries the key. -/
def hasHomeXgCol (corpus : List TMatch) : Bool := corpus.any (fun m => m.home_xg.isSome)

/-- Whether the dataframe has an away_xg column. -/
def hasAwayXgCol (corpus : List TMatch) : Bool := corpus.any (fun m => m.away_xg.isSome)

/-- Stable insertion into a list of matches sorted by descending date. -/
def insertByDateDesc (m : TMatch) : List TMatch → List TMatch
  | [] => [m]
  | x :: xs => if x.date ≤ m.date then m :: x :: xs else x :: insertByDateDesc m xs

/-- Stable sort by descending date (`sort_values` date ascending=False). -/
def sortByDateDesc (l : List TMatch) : List TMatch := l.foldr insertByDateDesc []

/-- np.mean of a list of integers (nonempty in every reachable call). -/
def meanInt (l : List Int) : Rat := mkRat (l.foldl (· + ·) 0) l.length

/-- An xG cell as read by `match.get(col, 0)`: 0 when the column is absent
from the dataframe, NaN when the column exists but the cell is empty. -/
def xgCell (colExists : Bool) (v : Option Rat) : TVal :=
  if colExists then (match v with | some x => TVal.q x | none => TVal.nan)
  else TVal.q 0

/-- np.mean of xG cells: NaN if any cell is NaN. -/
def meanXg (l : List TVal) : TVal :=
  if l.any (fun v => v = TVal.nan) then TVal.nan
  else TVal.q (ratDivNat
    (l.foldl (fun acc v => match v with | TVal.q x => ratAdd acc x | _ => acc) 0) l.length)

/-- Points from the perspective of `team` for one match (3 win, 1 draw,
0 loss), with the home branch taken first exactly as in the source. -/
def pointsFor (team : String) (m : TMatch) : Int :=
  if m.home_team = team then
    if m.away_score < m.home_score then 3 else if m.home_score = m.away_score then 1 else 0
  else
    if m.home_score < m.away_score then 3 else if m.away_score = m.home_score then 1 else 0

/-- Goals scored by `team` in one match. -/
def goalsScored (team : String) (m : TMatch) : Int :=
  if m.home_team = team then m.home_score else m.away_score

/-- Goals conceded by `team` in one match. -/
def goalsConceded (team : String) (m : TMatch) : Int :=
  if m.home_team = team then m.away_score else m.home_score

/-- The feature block of one window size (lines 60-107): means of goals
scored/conceded and points, the win rate, and, when the dataframe has a
home_xg column, the xG means. -/
def windowFeatures (team : String) (teamMatches : List TMatch)
    (hasHX hasAX : Bool) (window : Nat) : TRow :=
  let recent := teamMatches.take window
  if recent.isEmpty then []
  else
    let pre := "last" ++ toString window ++ "_"
    let gs := recent.map (goalsScored team)
    let gc := recent.map (goalsConceded team)
    let pts := recent.map (pointsFor team)
    [(pre ++ "goals_scored_avg", if gs.isEmpty then TVal.q 0 else TVal.q (meanInt gs)),
     (pre ++ "goals_conceded_avg", if gc.isEmpty then TVal.q 0 else TVal.q (meanInt gc)),
     (pre ++ "points_avg", if pts.isEmpty then TVal.q 0 else TVal.q (meanInt pts)),
     (pre ++ "win_rate", if pts.isEmpty then TVal.q 0
       else TVal.q (mkRat ((pts.filter (fun p => p = 3)).length : Int) pts.length))] ++
    (if hasHX then
      let xf := recent.map (fun m =>
        if m.home_team = team then xgCell hasHX m.home_xg else xgCell hasAX m.away_xg)
      let xa := recent.map (fun m =>
        if m.home_team = team then xgCell hasAX m.away_xg else xgCell hasHX m.home_xg)
      [(pre ++ "xg_for_avg", if xf.isEmpty then TVal.q 0 else meanXg xf),
       (pre ++ "xg_against_avg", if xa.isEmpty then TVal.q 0 else meanXg xa)]
    else [])

/-- `TemporalFeatureEngineer._get_default_features`: the fixed default row
for a team without history (0.33 as the exact rational 33/100). -/
def defaultFeatures (team : String) : TRow :=
  [("team", TVal.s team),
   ("total_matches", TVal.q 0),
   ("last5_goals_scored_avg", TVal.q 1),
   ("last5_goals_conceded_avg", TVal.q 1),
   ("last5_points_avg", TVal.q 1),
   ("last5_win_rate", TVal.q (mkRat 33 100))]

/-- `TemporalFeatureEngineer._calculate_features_for_team` (lines 45-109):
filter the matches of the team, sort by date descending, return the default
row when there are none, otherwise the per-window feature blocks. -/
def calcFeaturesForTeam (windowSizes : List Nat) (team : String)
    (historical : List TMatch) (hasHX hasAX : Bool) : TRow :=
  let teamMatches := sortByDateDesc (historical.filter (fun m =>
    m.home_team = team ∨ m.away_team = team))
  if teamMatches.length = 0 then defaultFeatures team
  else
    [("team", TVal.s team), ("total_matches", TVal.q (intToRat teamMatches.length))] ++
      windowSizes.foldr (fun w acc =>
        windowFeatures team teamMatches hasHX hasAX w ++ acc) []

/-- `TemporalFeatureEngineer.create_team_features` (lines 16-43): keep only
matches strictly before the cutoff, return an empty result when none remain,
and otherwise one feature row per team appearing in the filtered history
(home teams first, in order of first appearance). -/
def createTeamFeatures (windowSizes : List Nat) (corpus : List TMatch)
    (cutoff : Int) : List TRow :=
  let historical := corpus.filter (fun m => m.date < cutoff)
  if historical.isEmpty then []
  else
    let allTeams := dedupFirst
      (historical.map (fun m => m.home_team) ++ historical.map (fun m => m.away_team))
    allTeams.map (fun t =>
      calcFeaturesForTeam windowSizes t historical (hasHomeXgCol corpus) (hasAwayXgCol corpus))



/-! ### Concrete probe data used by the closed theorems -/

/-- A historical match before every cutoff used below. -/
def probeMatch : TMatch := ⟨5, "Arsenal", "Chelsea", 2, 0, none, none⟩

/-- A match on the cutoff date carrying a home_xg value: it is excluded by
the strict date filter but still introduces the home_xg column. -/
def probeFutureXg : TMatch := ⟨10, "Arsenal", "Leeds", 1, 1, some 1, none⟩

/-- A match on the cutoff date without xG values. -/
def probeFuturePlain : TMatch := ⟨10, "Leeds", "Everton", 3, 1, none, none⟩

/-- A football_data-style record of a fixture with an xG value. -/
def probeXgRecA : Fields :=
  [("date", Val.i 7), ("home_team", Val.s "Juventus"),
   ("away_team", Val.s "Napoli"), ("home_xg", Val.q 1)]

/-- The same fixture (via aliases) from another source, different xG. -/
def probeXgRecB : Fields :=
  [("date", Val.i 7), ("home_team", Val.s "Juve"),
   ("away_team", Val.s "SSC Napoli"), ("home_xg", Val.q 2)]

/-- A record that smuggles a `_priority` key in through the input. -/
def probePriorityRec : Fields :=
  [("_priority", Val.i 5), ("date", Val.i 7),
   ("home_team", Val.s "Juventus"), ("away_team", Val.s "Napoli")]


/-- A single-source record with both scores. -/
def probeScoredA : Fields :=
  [("date", Val.i 7), ("home_team", Val.s "Juventus"),
   ("away_team", Val.s "Napoli"), ("home_score", Val.i 2), ("away_score", Val.i 0)]

/-- A second single-source record with a distinct match key. -/
def probeScoredB : Fields :=
  [("date", Val.i 8), ("home_team", Val.s "Inter"),
   ("away_team", Val.s "AC Milan"), ("home_score", Val.i 1), ("away_score", Val.i 1)]

/-! ### Helper lemmas -/

/-- A successful association-list lookup exhibits a member pair. -/
theorem lookupEqSome_mem {α β : Type} [BEq α] [LawfulBEq α] {l : List (α × β)}
    {k : α} {v : β} (h : l.lookup k = some v) : (k, v) ∈ l := by
  induction l with
  | nil => simp [List.lookup] at h
  | cons p t ih =>
    rw [List.lookup] at h
    by_cases hk : k = p.1
    · subst hk
      simp at h
      subst h
      exact List.mem_cons_self _ _
    · have hbeq : (k == p.1) = false := beq_eq_false_iff_ne.mpr hk
      rw [hbeq] at h
      exact List.mem_cons_of_mem _ (ih h)


/-- The character-list order is asymmetric. -/
theorem charsLt_asymm (a : List Char) : ∀ b, charsLt a b = true → charsLt b a = false := by
  induction a with
  | nil =>
    intro b h
    cases b with
    | nil => simp [charsLt] at h
    | cons y ys => simp [charsLt]
  | cons x xs ih =>
    intro b h
    cases b with
    | nil => simp [charsLt] at h
    | cons y ys =>
      simp only [charsLt, Bool.or_eq_true, Bool.and_eq_true, decide_eq_true_eq,
        Bool.or_eq_false_iff, Bool.and_eq_false_iff, decide_eq_false_iff_not] at h ⊢
      rcases h with h | ⟨he, hlt⟩
      · exact ⟨Nat.not_lt.mpr (Nat.le_of_lt h), Or.inl fun he => absurd h (he ▸ Nat.lt_irrefl _)⟩
      · exact ⟨fun h2 => absurd (he ▸ h2) (Nat.lt_irrefl _), Or.inr (ih ys hlt)⟩

/-- Two character lists neither of which is below the other are equal. -/
theorem charsLt_eq_of_not_lt (a : List Char) :
    ∀ b, charsLt a b = false → charsLt b a = false → a = b := by
  induction a with
  | nil =>
    intro b h1 _
    cases b with
    | nil => rfl
    | cons y ys => simp [charsLt] at h1
  | cons x xs ih =>
    intro b h1 h2
    cases b with
    | nil => simp [charsLt] at h2
    | cons y ys =>
      simp only [charsLt, Bool.or_eq_false_iff, Bool.and_eq_false_iff,
        decide_eq_false_iff_not] at h1 h2
      have hxy : x.toNat = y.toNat :=
        Nat.le_antisymm (Nat.not_lt.mp h2.1) (Nat.not_lt.mp h1.1)
      have hx : x = y := Char.ext (UInt32.ext hxy)
      subst hx
      have hxs : xs = ys := by
        rcases h1.2 with hc | hc
        · exact absurd rfl hc
        · rcases h2.2 with hd | hd
          · exact absurd rfl hd
          · exact ih ys hc hd
      rw [hxs]

/-- String order asymmetry. -/
theorem strLt_asymm (a b : String) (h : strLt a b = true) : strLt b a = false :=
  charsLt_asymm a.data b.data h

/-- Strings neither of which is below the other are equal. -/
theorem strLt_eq_of_not_lt (a b : String) (h1 : strLt a b = false)
    (h2 : strLt b a = false) : a = b := by
  cases a with
  | mk da =>
    cases b with
    | mk db =>
      exact congrArg String.mk (charsLt_eq_of_not_lt da db h1 h2)

/-- Every value of the alias dictionary is a fixed point of `normalize`
(each canonical name is itself a key of the dictionary). -/
theorem normalize_alias_value_fixed :
    ∀ p ∈ aliasToStandard, normalize p.2 = p.2 := by decide



/-- Membership in an insertion-sorted insertion. -/
theorem mem_insertStr {a s : String} : ∀ {l : List String},
    a ∈ insertStr s l ↔ a = s ∨ a ∈ l := by
  intro l
  induction l with
  | nil => simp [insertStr]
  | cons x xs ih =>
    simp only [insertStr]
    split
    · simp only [List.mem_cons, ih]
      tauto
    · simp only [List.mem_cons]

/-- Sorting the keys preserves membership. -/
theorem mem_sortStr {a : String} : ∀ {l : List String}, a ∈ sortStr l ↔ a ∈ l := by
  intro l
  induction l with
  | nil => simp [sortStr]
  | cons x xs ih =>
    show a ∈ insertStr x (sortStr xs) ↔ _
    rw [mem_insertStr]
    simp [ih]

/-- Insertion grows the length by one. -/
theorem length_insertStr (s : String) : ∀ (l : List String),
    (insertStr s l).length = l.length + 1 := by
  intro l
  induction l with
  | nil => rfl
  | cons x xs ih =>
    simp only [insertStr]
    split
    · simp [ih]
    · simp

/-- Sorting the keys preserves the length. -/
theorem length_sortStr : ∀ (l : List String), (sortStr l).length = l.length := by
  intro l
  induction l with
  | nil => rfl
  | cons x xs ih =>
    show (insertStr x (sortStr xs)).length = _
    rw [length_insertStr, ih, List.length_cons]

/-- Deduplication only returns elements of the input. -/
theorem mem_dedupFirstGo {α : Type} [DecidableEq α] {a : α} :
    ∀ (fuel : Nat) (l : List α), a ∈ dedupFirstGo fuel l → a ∈ l := by
  intro fuel
  induction fuel with
  | zero => intro l h; simp [dedupFirstGo] at h
  | succ n ih =>
    intro l h
    cases l with
    | nil => simp [dedupFirstGo] at h
    | cons x xs =>
      simp only [dedupFirstGo, List.mem_cons] at h
      rcases h with h | h
      · exact h ▸ List.mem_cons_self x xs
      · exact List.mem_cons_of_mem x (List.mem_of_mem_filter (ih _ h))

/-- Deduplication only returns elements of the input. -/
theorem mem_dedupFirst {α : Type} [DecidableEq α] {a : α} {l : List α}
    (h : a ∈ dedupFirst l) : a ∈ l :=
  mem_dedupFirstGo l.length l h

/-- Deduplication of a duplicate-free list is the identity. -/
theorem dedupFirstGo_eq_self {α : Type} [DecidableEq α] :
    ∀ (fuel : Nat) (l : List α), l.Nodup → l.length ≤ fuel → dedupFirstGo fuel l = l := by
  intro fuel
  induction fuel with
  | zero =>
    intro l _ hlen
    rw [Nat.le_zero, List.length_eq_zero] at hlen
    subst hlen
    rfl
  | succ n ih =>
    intro l hnd hlen
    cases l with
    | nil => rfl
    | cons x xs =>
      rw [List.nodup_cons] at hnd
      have hfix : xs.filter (fun y => y ≠ x) = xs := by
        rw [List.filter_eq_self]
        intro y hy
        simp only [ne_eq, decide_eq_true_eq]
        intro he
        exact hnd.1 (he ▸ hy)
      simp only [dedupFirstGo, hfix]
      rw [ih xs hnd.2 (Nat.le_of_succ_le_succ hlen)]

/-- Deduplication of a duplicate-free list is the identity. -/
theorem dedupFirst_eq_self {α : Type} [DecidableEq α] {l : List α} (h : l.Nodup) :
    dedupFirst l = l :=
  dedupFirstGo_eq_self l.length l h le_rfl

/-- When the images under `f` are duplicate-free, filtering on the image of a
member recovers exactly that member. -/
theorem filter_eq_singleton_of_nodup_map {α β : Type} [DecidableEq β] (f : α → β) :
    ∀ (l : List α), (l.map f).Nodup → ∀ r ∈ l,
      l.filter (fun x => f x = f r) = [r] := by
  intro l
  induction l with
  | nil => intro _ r hr; simp at hr
  | cons a t ih =>
    intro hnd r hr
    rw [List.map_cons, List.nodup_cons] at hnd
    rcases List.mem_cons.mp hr with hra | hrt
    · subst hra
      have ht : t.filter (fun x => f x = f r) = [] := by
        rw [List.filter_eq_nil_iff]
        intro x hx
        simp only [decide_eq_true_eq]
        intro he
        exact hnd.1 (he ▸ List.mem_map_of_mem f hx)
      simp [List.filter_cons, ht]
    · have hne : ¬ (f a = f r) := fun he => hnd.1 (he ▸ List.mem_map_of_mem f hrt)
      simp only [List.filter_cons, decide_eq_true_eq]
      rw [if_neg hne]
      exact ih hnd.2 r hrt

/-- With duplicate-free match keys every group is a singleton and
mergeGrouped passes each row's fields through unchanged. -/
theorem mergeGrouped_of_nodup_keys (rows : List Row) (p : String)
    (h : (rows.map rowKey).Nodup) :
    (mergeGrouped rows p).length = rows.length ∧
    ∀ out ∈ mergeGrouped rows p, ∃ r ∈ rows, out = r.fields := by
  unfold mergeGrouped
  constructor
  · rw [List.length_map, length_sortStr, dedupFirst_eq_self h, List.length_map]
  · intro out hout
    rw [List.mem_map] at hout
    obtain ⟨k, hk, hfk⟩ := hout
    rw [mem_sortStr] at hk
    have hk2 : k ∈ rows.map rowKey := mem_dedupFirst hk
    rw [List.mem_map] at hk2
    obtain ⟨r, hr, hrk⟩ := hk2
    subst hrk
    have hgrp : rows.filter (fun x => rowKey x = rowKey r) = [r] :=
      filter_eq_singleton_of_nodup_map rowKey rows h r hr
    refine ⟨r, hr, ?_⟩
    rw [← hfk]
    simp [hgrp]


/-- Keys of a dict after an assignment: the assigned key or an old key. -/
theorem mem_setField {m : Fields} {k : String} {v : Val} :
    ∀ kv ∈ setField m k v, kv.1 = k ∨ ∃ kv0 ∈ m, kv.1 = kv0.1 := by
  intro kv hkv
  unfold setField at hkv
  split at hkv
  · rw [List.mem_map] at hkv
    obtain ⟨kv0, h0, hg⟩ := hkv
    by_cases he : kv0.1 = k
    · rw [if_pos he] at hg
      left
      rw [← hg]
    · rw [if_neg he] at hg
      right
      exact ⟨kv0, h0, by rw [← hg]⟩
  · rw [List.mem_append] at hkv
    rcases hkv with h0 | h0
    · right
      exact ⟨kv, h0, rfl⟩
    · left
      rw [List.mem_singleton] at h0
      rw [h0]

/-- Assigning a non-underscore key preserves freedom from underscore keys. -/
theorem noUnderscore_setField {m : Fields} {k : String} {v : Val}
    (hm : ∀ kv ∈ m, strStarts kv.1 "_" = false) (hk : strStarts k "_" = false) :
    ∀ kv ∈ setField m k v, strStarts kv.1 "_" = false := by
  intro kv hkv
  rcases mem_setField kv hkv with he | ⟨kv0, h0, he⟩
  · rw [he]
    exact hk
  · rw [he]
    exact hm kv0 h0

/-- The per-column merge step preserves freedom from underscore keys. -/
theorem noUnderscore_mergeField {m : Fields} {src k : String} {v : Val}
    (hm : ∀ kv ∈ m, strStarts kv.1 "_" = false) (hk : strStarts k "_" = false) :
    ∀ kv ∈ mergeField m src k v, strStarts kv.1 "_" = false := by
  intro kv hkv
  unfold mergeField at hkv
  split_ifs at hkv <;>
    first
      | exact noUnderscore_setField hm hk kv hkv
      | exact hm kv hkv

/-- The column fold of one record preserves freedom from underscore keys
(underscore columns are skipped, others checked by noUnderscore_mergeField). -/
theorem noUnderscore_fieldsFold (src : String) :
    ∀ (fl : List (String × Val)) (m : Fields),
      (∀ kv ∈ m, strStarts kv.1 "_" = false) →
      ∀ kv ∈ fl.foldl (fun acc kv2 =>
          if strStarts kv2.1 "_" then acc else mergeField acc src kv2.1 kv2.2) m,
        strStarts kv.1 "_" = false := by
  intro fl
  induction fl with
  | nil => exact fun m hm kv hkv => hm kv hkv
  | cons f t ih =>
    intro m hm kv hkv
    rw [List.foldl_cons] at hkv
    refine ih _ ?_ kv hkv
    intro kv2 hkv2
    by_cases hf : strStarts f.1 "_" = true
    · rw [if_pos hf] at hkv2
      exact hm kv2 hkv2
    · rw [if_neg hf] at hkv2
      have hf2 : strStarts f.1 "_" = false := by simpa using hf
      exact noUnderscore_mergeField hm hf2 kv2 hkv2

/-- Merging one record preserves freedom from underscore keys. -/
theorem noUnderscore_mergeRow {m : Fields} {r : Row}
    (hm : ∀ kv ∈ m, strStarts kv.1 "_" = false) :
    ∀ kv ∈ mergeRow m r, strStarts kv.1 "_" = false :=
  noUnderscore_fieldsFold r.source r.fields m hm

/-- Folding any list of records preserves freedom from underscore keys. -/
theorem noUnderscore_rowsFold :
    ∀ (rows : List Row) (m : Fields),
      (∀ kv ∈ m, strStarts kv.1 "_" = false) →
      ∀ kv ∈ rows.foldl mergeRow m, strStarts kv.1 "_" = false := by
  intro rows
  induction rows with
  | nil => exact fun m hm kv hkv => hm kv hkv
  | cons r t ih =>
    intro m hm kv hkv
    rw [List.foldl_cons] at hkv
    exact ih _ (noUnderscore_mergeRow hm) kv hkv

/-- The xG derivation adds only the keys total_xg and xg_difference. -/
theorem noUnderscore_xgDerived {m : Fields}
    (hm : ∀ kv ∈ m, strStarts kv.1 "_" = false) :
    ∀ kv ∈ xgDerived m, strStarts kv.1 "_" = false := by
  unfold xgDerived
  split
  · split
    · exact noUnderscore_setField (noUnderscore_setField hm (by decide)) (by decide)
    · exact hm
  · exact hm

/-- Derived-field computation adds only non-underscore keys. -/
theorem noUnderscore_calcDerivedFields {m : Fields}
    (hm : ∀ kv ∈ m, strStarts kv.1 "_" = false) :
    ∀ kv ∈ calcDerivedFields m, strStarts kv.1 "_" = false := by
  unfold calcDerivedFields
  split
  · exact noUnderscore_xgDerived (noUnderscore_setField
      (noUnderscore_setField (noUnderscore_setField hm (by decide)) (by decide)) (by decide))
  · split
    · exact noUnderscore_xgDerived (noUnderscore_setField
        (noUnderscore_setField (noUnderscore_setField hm (by decide)) (by decide)) (by decide))
    · exact hm
  · exact noUnderscore_xgDerived hm

/-- A merged multi-record group carries no underscore-prefixed keys at all. -/
theorem noUnderscore_mergeMatchGroup (group : List Row) (p : String) :
    ∀ kv ∈ mergeMatchGroup group p, strStarts kv.1 "_" = false := by
  unfold mergeMatchGroup
  exact noUnderscore_calcDerivedFields
    (noUnderscore_rowsFold _ [] (fun kv hkv => absurd hkv (List.not_mem_nil kv)))

/-- Record preparation drops `_source`/`_match_key` and otherwise only keeps
keys of the input record. -/
theorem prepRecord_keys {fs : Fields} :
    ∀ kv ∈ prepRecord fs,
      kv.1 ≠ "_source" ∧ kv.1 ≠ "_match_key" ∧ ∃ v0, (kv.1, v0) ∈ fs := by
  intro kv hkv
  unfold prepRecord at hkv
  rw [List.mem_filter] at hkv
  obtain ⟨hmem, hpred⟩ := hkv
  simp only [decide_eq_true_eq, not_or] at hpred
  refine ⟨hpred.1, hpred.2, ?_⟩
  rw [List.mem_filterMap] at hmem
  obtain ⟨kv0, h0, hg⟩ := hmem
  have hkeq : kv.1 = kv0.1 ∧ True := by
    split at hg
    · split at hg <;> (injection hg with hg2; rw [← hg2]; exact ⟨rfl, trivial⟩)
    · split at hg
      · split at hg
        · injection hg with hg2
          rw [← hg2]
          exact ⟨rfl, trivial⟩
        · exact Option.noConfusion hg
      · injection hg with hg2
        rw [← hg2]
        exact ⟨rfl, trivial⟩
  refine ⟨kv0.2, ?_⟩
  rw [hkeq.1]
  exact h0

/-! ### Claim theorems -/

set_option maxRecDepth 40000 in
/-- C6 (counterexample): `normalize` is not idempotent. The input
"as ssc x" strips its "as " prefix token, misses the fuzzy table, and
title-cases to "Ssc X"; a second pass lowercases that back to "ssc x",
now strips the "ssc " prefix token and returns "X". -/
theorem c6_normalize_not_idempotent :
    normalize (normalize "as ssc x") ≠ normalize "as ssc x" := by decide

/-- C6 (amended): `normalize` is idempotent on every input whose stripped
lowercased form is a key of the alias table (in particular on every
canonical name and known alias); the general claim fails only on the
title-case fallback path. -/
theorem c6_normalize_idempotent_on_alias_hits (x : String)
    (h : (aliasToStandard.lookup (strLower (strTrim x))).isSome) :
    normalize (normalize x) = normalize x := by
  obtain ⟨c, hc⟩ := Option.isSome_iff_exists.mp h
  have hx : x ≠ "" := by
    intro he
    subst he
    rw [show aliasToStandard.lookup (strLower (strTrim "")) = none from by decide] at hc
    exact Option.noConfusion hc
  have h1 : normalize x = c := by
    unfold normalize
    rw [if_neg hx]
    simp only [hc]
  rw [h1]
  exact normalize_alias_value_fixed _ (lookupEqSome_mem hc)

/-- C6 (witness): the alias "Man Utd" hits the alias table, and
re-normalizing its normalization returns it unchanged. -/
theorem c6_normalize_idempotent_witness :
    (aliasToStandard.lookup (strLower (strTrim "Man Utd"))).isSome ∧
      normalize (normalize "Man Utd") = normalize "Man Utd" :=
  ⟨by decide, c6_normalize_idempotent_on_alias_hits "Man Utd" (by decide)⟩

/-- C7: the match key builder is symmetric in the two team names, and a
missing (or pandas-unparseable, hence NaT) date is bucketed to the fixed
sentinel "unknown". -/
theorem c7_match_key_symmetric_and_unknown_sentinel :
    (∀ (d : Option Int) (a b : String), createMatchKey d a b = createMatchKey d b a) ∧
      dateBucket none = "unknown" := by
  refine ⟨fun d a b => ?_, rfl⟩
  simp only [createMatchKey]
  cases h1 : strLt (normalize a) (normalize b) with
  | false =>
    cases h2 : strLt (normalize b) (normalize a) with
    | false => rw [strLt_eq_of_not_lt _ _ h1 h2]
    | true => simp [h1, h2]
  | true =>
    have h2 : strLt (normalize b) (normalize a) = false := strLt_asymm _ _ h1
    simp [h1, h2]

/-- C2 (evaluation at the failing input): in a two-record group the core
identity field match_id of the merged record comes from the lower-priority
understat record ("B9"), not from the primary football_data record ("A1"):
the merge loop reassigns identity fields for every record that has them, so
the last (lowest-ranked) record wins, contradicting the comment in the
source ("Campi base: prendi dalla prima fonte") and the spec. -/
theorem c2_identity_field_last_writer_wins :
    (mergeMatchGroup
      [Row.mk "football_data" [("match_id", Val.s "A1"), ("date", Val.i 7),
        ("home_team", Val.s "X"), ("away_team", Val.s "Y"),
        ("home_score", Val.i 2), ("away_score", Val.i 1)],
       Row.mk "understat" [("match_id", Val.s "B9"), ("date", Val.i 7),
        ("home_team", Val.s "X"), ("away_team", Val.s "Y"),
        ("home_score", Val.i 2), ("away_score", Val.i 2)]] "football_data").lookup "match_id"
      = some (Val.s "B9") := by decide

/-- C4: when the primary source and another source report the same match
with different away scores, the merged record takes away_score from the
primary record whichever order the two records appear in, and the derived
result is consistent with the primary scores. -/
theorem c4_primary_source_wins_away_score (d h1 a1 h2 a2 : Int) (_hne : a1 ≠ a2) :
    let rA : Row := ⟨"football_data", [("date", Val.i d), ("home_team", Val.s "Juventus"),
      ("away_team", Val.s "Napoli"), ("home_score", Val.i h1), ("away_score", Val.i a1)]⟩
    let rB : Row := ⟨"understat", [("date", Val.i d), ("home_team", Val.s "Juventus"),
      ("away_team", Val.s "Napoli"), ("home_score", Val.i h2), ("away_score", Val.i a2)]⟩
    (mergeMatchGroup [rA, rB] "football_data").lookup "away_score" = some (Val.i a1) ∧
    (mergeMatchGroup [rB, rA] "football_data").lookup "away_score" = some (Val.i a1) ∧
    (mergeMatchGroup [rA, rB] "football_data").lookup "result"
      = some (Val.s (if a1 < h1 then "H" else if h1 < a1 then "A" else "D")) := by
  intro rA rB
  have ha : mergeRow [] rA =
      [("date", Val.i d), ("home_team", Val.s "Juventus"), ("away_team", Val.s "Napoli"),
       ("home_score", Val.i h1), ("away_score", Val.i a1)] := rfl
  have hb : mergeRow [("date", Val.i d), ("home_team", Val.s "Juventus"),
        ("away_team", Val.s "Napoli"), ("home_score", Val.i h1), ("away_score", Val.i a1)] rB =
      [("date", Val.i d), ("home_team", Val.s "Juventus"), ("away_team", Val.s "Napoli"),
       ("home_score", Val.i h1), ("away_score", Val.i a1)] := rfl
  have hm : ([rA, rB]).foldl mergeRow [] =
      [("date", Val.i d), ("home_team", Val.s "Juventus"), ("away_team", Val.s "Napoli"),
       ("home_score", Val.i h1), ("away_score", Val.i a1)] := by
    rw [List.foldl_cons, List.foldl_cons, List.foldl_nil, ha, hb]
  have hs1 : sortByPriority "football_data" [rA, rB] = [rA, rB] := rfl
  have hs2 : sortByPriority "football_data" [rB, rA] = [rA, rB] := rfl
  refine ⟨?_, ?_, ?_⟩ <;> unfold mergeMatchGroup
  · rw [hs1, hm]
    rfl
  · rw [hs2, hm]
    rfl
  · rw [hs1, hm]
    rfl

/-- C4 (witness): the spec scenario, sources A (primary, 2-1) and
B (2-2): merged away_score is 1 and result is "H". -/
theorem c4_primary_source_wins_away_score_witness :
    (1 : Int) ≠ 2 ∧
    ((mergeMatchGroup
      [⟨"football_data", [("date", Val.i 7), ("home_team", Val.s "Juventus"),
        ("away_team", Val.s "Napoli"), ("home_score", Val.i 2), ("away_score", Val.i 1)]⟩,
       ⟨"understat", [("date", Val.i 7), ("home_team", Val.s "Juventus"),
        ("away_team", Val.s "Napoli"), ("home_score", Val.i 2), ("away_score", Val.i 2)]⟩]
      "football_data").lookup "away_score" = some (Val.i 1) ∧
     (mergeMatchGroup
      [⟨"understat", [("date", Val.i 7), ("home_team", Val.s "Juventus"),
        ("away_team", Val.s "Napoli"), ("home_score", Val.i 2), ("away_score", Val.i 2)]⟩,
       ⟨"football_data", [("date", Val.i 7), ("home_team", Val.s "Juventus"),
        ("away_team", Val.s "Napoli"), ("home_score", Val.i 2), ("away_score", Val.i 1)]⟩]
      "football_data").lookup "away_score" = some (Val.i 1) ∧
     (mergeMatchGroup
      [⟨"football_data", [("date", Val.i 7), ("home_team", Val.s "Juventus"),
        ("away_team", Val.s "Napoli"), ("home_score", Val.i 2), ("away_score", Val.i 1)]⟩,
       ⟨"understat", [("date", Val.i 7), ("home_team", Val.s "Juventus"),
        ("away_team", Val.s "Napoli"), ("home_score", Val.i 2), ("away_score", Val.i 2)]⟩]
      "football_data").lookup "result" = some (Val.s "H")) :=
  ⟨by decide, by simpa using c4_primary_source_wins_away_score 7 2 1 2 2 (by decide)⟩

/-- C5: in a two-record group where the higher-ranked general source
(football_data, here also the primary) and understat both supply home_xg
and away_xg, the merged xG fields take the understat values, in either
input order. -/
theorem c5_understat_xg_overrides (x1 y1 x2 y2 : Rat) :
    let rFd : Row := ⟨"football_data", [("date", Val.i 3), ("home_team", Val.s "Juventus"),
      ("away_team", Val.s "Napoli"), ("home_xg", Val.q x1), ("away_xg", Val.q y1)]⟩
    let rUs : Row := ⟨"understat", [("date", Val.i 3), ("home_team", Val.s "Juventus"),
      ("away_team", Val.s "Napoli"), ("home_xg", Val.q x2), ("away_xg", Val.q y2)]⟩
    (mergeMatchGroup [rFd, rUs] "football_data").lookup "home_xg" = some (Val.q x2) ∧
    (mergeMatchGroup [rFd, rUs] "football_data").lookup "away_xg" = some (Val.q y2) ∧
    (mergeMatchGroup [rUs, rFd] "football_data").lookup "home_xg" = some (Val.q x2) := by
  intro rFd rUs
  have ha : mergeRow [] rFd =
      [("date", Val.i 3), ("home_team", Val.s "Juventus"), ("away_team", Val.s "Napoli"),
       ("home_xg", Val.q x1), ("away_xg", Val.q y1)] := rfl
  have hb : mergeRow [("date", Val.i 3), ("home_team", Val.s "Juventus"),
        ("away_team", Val.s "Napoli"), ("home_xg", Val.q x1), ("away_xg", Val.q y1)] rUs =
      [("date", Val.i 3), ("home_team", Val.s "Juventus"), ("away_team", Val.s "Napoli"),
       ("home_xg", Val.q x2), ("away_xg", Val.q y2)] := rfl
  have hm : ([rFd, rUs]).foldl mergeRow [] =
      [("date", Val.i 3), ("home_team", Val.s "Juventus"), ("away_team", Val.s "Napoli"),
       ("home_xg", Val.q x2), ("away_xg", Val.q y2)] := by
    rw [List.foldl_cons, List.foldl_cons, List.foldl_nil, ha, hb]
  have hs1 : sortByPriority "football_data" [rFd, rUs] = [rFd, rUs] := rfl
  have hs2 : sortByPriority "football_data" [rUs, rFd] = [rFd, rUs] := rfl
  refine ⟨?_, ?_, ?_⟩ <;> unfold mergeMatchGroup
  · rw [hs1, hm]
    rfl
  · rw [hs1, hm]
    rfl
  · rw [hs2, hm]
    rfl


/-- C1 (counterexample): the two-run leakage statement fails as written.
Adding a match dated at the cutoff (hence excluded by the strict filter)
that carries a home_xg value makes the dataframe have a home_xg column, so
every team feature row acquires xG feature keys (with NaN means) that were
absent before: a change entirely at-or-after the cutoff changed the rows. -/
theorem c1_future_xg_column_changes_rows :
    (10 : Int) ≤ probeFutureXg.date ∧
    createTeamFeatures [5, 10] [probeMatch] 10 ≠
      createTeamFeatures [5, 10] [probeMatch, probeFutureXg] 10 := by decide

/-- C1 (amended): team feature rows at cutoff C depend only on the ordered
sublist of matches dated strictly before C together with the corpus-level
presence of the home_xg and away_xg columns; two corpora agreeing on those
three observations produce identical feature rows. -/
theorem c1_features_depend_only_on_strict_past_and_columns
    (ws : List Nat) (corpusA corpusB : List TMatch) (cutoff : Int)
    (hf : corpusA.filter (fun m => m.date < cutoff) =
      corpusB.filter (fun m => m.date < cutoff))
    (hhx : hasHomeXgCol corpusA = hasHomeXgCol corpusB)
    (hax : hasAwayXgCol corpusA = hasAwayXgCol corpusB) :
    createTeamFeatures ws corpusA cutoff = createTeamFeatures ws corpusB cutoff := by
  unfold createTeamFeatures
  rw [hf, hhx, hax]

/-- C1 (witness): adding a cutoff-dated match without xG values changes
nothing. -/
theorem c1_features_depend_witness :
    ([probeMatch].filter (fun m => m.date < 10) =
      [probeMatch, probeFuturePlain].filter (fun m => m.date < 10)) ∧
    hasHomeXgCol [probeMatch] = hasHomeXgCol [probeMatch, probeFuturePlain] ∧
    hasAwayXgCol [probeMatch] = hasAwayXgCol [probeMatch, probeFuturePlain] ∧
    createTeamFeatures [5, 10] [probeMatch] 10 =
      createTeamFeatures [5, 10] [probeMatch, probeFuturePlain] 10 :=
  ⟨by decide, by decide, by decide,
    c1_features_depend_only_on_strict_past_and_columns [5, 10]
      [probeMatch] [probeMatch, probeFuturePlain] 10 (by decide) (by decide) (by decide)⟩

/-- C8 (counterexample): a team with zero qualifying historical matches does
not receive the default row in the output of create_team_features: it is
absent from the output altogether, because rows are only produced for teams
appearing in the filtered history. -/
theorem c8_zero_match_team_receives_no_row :
    ([probeMatch].filter (fun m =>
      m.home_team = "Leeds" ∨ m.away_team = "Leeds") = []) ∧
    (∀ row ∈ createTeamFeatures [5, 10] [probeMatch] 10,
      row.lookup "team" ≠ some (TVal.s "Leeds")) ∧
    defaultFeatures "Leeds" ∉ createTeamFeatures [5, 10] [probeMatch] 10 := by decide

/-- C8 (amended): the helper _calculate_features_for_team returns exactly
the fixed default row (total_matches 0, last5 averages 1.0, win rate 0.33)
for a team with zero qualifying matches; create_team_features itself never
emits a row for such a team. -/
theorem c8_default_row_for_team_without_history
    (ws : List Nat) (team : String) (historical : List TMatch) (hHX hAX : Bool)
    (h : historical.filter (fun m =>
      m.home_team = team ∨ m.away_team = team) = []) :
    calcFeaturesForTeam ws team historical hHX hAX = defaultFeatures team := by
  unfold calcFeaturesForTeam
  rw [h]
  rfl

/-- C8 (witness): the default row for a team absent from a nonempty
history. -/
theorem c8_default_row_witness :
    ([probeMatch].filter (fun m =>
      m.home_team = "Leeds" ∨ m.away_team = "Leeds") = []) ∧
    calcFeaturesForTeam [5, 10] "Leeds" [probeMatch] false false =
      defaultFeatures "Leeds" :=
  ⟨by decide,
    c8_default_row_for_team_without_history [5, 10] "Leeds" [probeMatch] false false (by decide)⟩

/-- C9 (counterexample): an empty source list is skipped, but it is not
inert: source tags are positional, so an empty list occupying a position
changes the tag (and hence the conflict policy) of the sources after it.
Removing the middle empty list flips the second source from sofascore to
understat, which then wins the home_xg conflict. -/
theorem c9_empty_source_position_affects_merge :
    mergeMatches [[probeXgRecA], [], [probeXgRecB]] "football_data" ≠
      mergeMatches [[probeXgRecA], [probeXgRecB]] "football_data" := by decide

/-- C9 (amended): merge never raises on empty input: with no sources, or
with every source list empty, it returns the empty list; empty source lists
are skipped without error, but their presence can still change how the
conflicts of the remaining sources resolve because tags are positional. -/
theorem c9_all_empty_sources_give_empty_merge
    (sources : List (List Fields)) (p : String) (h : ∀ l ∈ sources, l = []) :
    mergeMatches sources p = [] := by
  unfold mergeMatches
  have hdfs : tagSources sources = [] := by
    unfold tagSources
    rw [List.filterMap_eq_nil_iff]
    intro pr hpr
    have h2 : pr.2 ∈ sources := by
      rw [← List.enum_map_snd sources]
      exact List.mem_map_of_mem _ hpr
    rw [h _ h2]
    rfl
  rw [hdfs]
  simp

/-- C9 (witness): two empty sources produce the empty merge. -/
theorem c9_all_empty_sources_witness :
    (∀ l ∈ [([] : List Fields), []], l = []) ∧
    mergeMatches [[], []] "football_data" = [] :=
  ⟨by decide, c9_all_empty_sources_give_empty_merge [[], []] "football_data" (by decide)⟩


/-- C3 (counterexample): a record from a group of size one is passed through
without derived-field computation: a single-source merge of one record with
scores 2-0 returns it with no result, total_goals or goal_difference
fields. -/
theorem c3_singleton_groups_lack_derived_fields :
    (mergeMatches [[probeScoredA]] "football_data").length = 1 ∧
    ∀ out ∈ mergeMatches [[probeScoredA]] "football_data",
      out.lookup "home_score" = some (Val.i 2) ∧
      out.lookup "away_score" = some (Val.i 0) ∧
      out.lookup "result" = none ∧
      out.lookup "total_goals" = none ∧
      out.lookup "goal_difference" = none := by decide

/-- C3 (amended): for a single-source input with pairwise distinct match
keys, merge returns one record per input record, each equal to its
normalized input record passed through unchanged (in particular with no
derived fields added). -/
theorem c3_single_source_merge_is_passthrough (src : List Fields) (p : String)
    (h : (src.map (fun fs => rowKey (Row.mk (sourceName 0) (prepRecord fs)))).Nodup) :
    (mergeMatches [src] p).length = src.length ∧
    ∀ out ∈ mergeMatches [src] p, ∃ rec ∈ src, out = prepRecord rec := by
  cases src with
  | nil =>
    refine ⟨rfl, ?_⟩
    intro out hout
    exact absurd hout (by simp [show mergeMatches [[]] p = [] from rfl])
  | cons a t =>
    have hrows : mergeMatches [a :: t] p =
        mergeGrouped (((a :: t).map (fun fs =>
          Row.mk (sourceName 0) (prepRecord fs))) ++ []) p := rfl
    rw [List.append_nil] at hrows
    set rows := (a :: t).map (fun fs => Row.mk (sourceName 0) (prepRecord fs)) with hrowsdef
    have hnd : (rows.map rowKey).Nodup := by
      rw [hrowsdef, List.map_map]
      exact h
    obtain ⟨hl, hmem⟩ := mergeGrouped_of_nodup_keys rows p hnd
    rw [hrows]
    constructor
    · rw [hl, hrowsdef, List.length_map]
    · intro out hout
      obtain ⟨r, hr, hfld⟩ := hmem out hout
      rw [hrowsdef, List.mem_map] at hr
      obtain ⟨rec, hrec, hmk⟩ := hr
      exact ⟨rec, hrec, by rw [hfld, ← hmk]⟩

/-- C3 (witness): a two-record single-source input with distinct keys merges
to two pass-through records. -/
theorem c3_single_source_merge_witness :
    (([probeScoredA, probeScoredB].map (fun fs =>
      rowKey (Row.mk (sourceName 0) (prepRecord fs)))).Nodup) ∧
    ((mergeMatches [[probeScoredA, probeScoredB]] "football_data").length =
      ([probeScoredA, probeScoredB] : List Fields).length ∧
     ∀ out ∈ mergeMatches [[probeScoredA, probeScoredB]] "football_data",
       ∃ rec ∈ ([probeScoredA, probeScoredB] : List Fields), out = prepRecord rec) :=
  ⟨by decide, c3_single_source_merge_is_passthrough
    [probeScoredA, probeScoredB] "football_data" (by decide)⟩


/-- C10 (counterexample): an input record that itself carries a `_priority`
key passes it through the singleton-group path into the output (only
`_source` and `_match_key` are popped there), so the claim fails for such
inputs. -/
theorem c10_priority_key_passes_through :
    (mergeMatches [[probePriorityRec]] "football_data").length = 1 ∧
    ((mergeMatches [[probePriorityRec]] "football_data").headD []).lookup "_priority"
      = some (Val.i 5) := by decide

/-- C10 (amended): for every input in which no record carries a `_priority`
key, no record returned by merge contains the keys `_source`, `_match_key`
or `_priority`: merged multi-record groups carry no underscore-prefixed keys
at all, and singleton groups pass through their record with `_source` and
`_match_key` removed. -/
theorem c10_outputs_free_of_bookkeeping_keys
    (sources : List (List Fields)) (p : String)
    (h : ∀ src ∈ sources, ∀ rec ∈ src, ∀ kv ∈ rec, kv.1 ≠ "_priority") :
    ∀ out ∈ mergeMatches sources p, ∀ kv ∈ out,
      kv.1 ≠ "_source" ∧ kv.1 ≠ "_match_key" ∧ kv.1 ≠ "_priority" := by
  intro out hout kv hkv
  unfold mergeMatches at hout
  split at hout
  · exact absurd hout (List.not_mem_nil out)
  · rw [show (let dfs := tagSources sources;
        if dfs.isEmpty then [] else mergeGrouped dfs.flatten p) =
        (if (tagSources sources).isEmpty then []
          else mergeGrouped (tagSources sources).flatten p) from rfl] at hout
    split at hout
    · exact absurd hout (List.not_mem_nil out)
    · unfold mergeGrouped at hout
      rw [List.mem_map] at hout
      obtain ⟨k, hk, hfk⟩ := hout
      by_cases hlen :
          1 < (((tagSources sources).flatten.filter (fun r => rowKey r = k)).length)
      · rw [if_pos hlen] at hfk
        rw [← hfk] at hkv
        have hnu := noUnderscore_mergeMatchGroup _ p kv hkv
        refine ⟨?_, ?_, ?_⟩ <;> intro he <;> rw [he] at hnu <;> exact absurd hnu (by decide)
      · rw [if_neg hlen] at hfk
        rw [mem_sortStr] at hk
        have hk2 := mem_dedupFirst hk
        rw [List.mem_map] at hk2
        obtain ⟨r, hr, hrk⟩ := hk2
        have hrin : r ∈ (tagSources sources).flatten.filter (fun x => rowKey x = k) :=
          List.mem_filter.mpr ⟨hr, by simp [hrk]⟩
        cases hflt : (tagSources sources).flatten.filter (fun x => rowKey x = k) with
        | nil =>
          rw [hflt] at hrin
          exact absurd hrin (List.not_mem_nil r)
        | cons g0 gs =>
          rw [hflt] at hfk
          have hout2 : out = g0.fields := by
            rw [← hfk]
            rfl
          have hg0 : g0 ∈ (tagSources sources).flatten := by
            have hin : g0 ∈ (tagSources sources).flatten.filter (fun x => rowKey x = k) := by
              rw [hflt]
              exact List.mem_cons_self g0 gs
            exact List.mem_of_mem_filter hin
          rw [List.mem_flatten] at hg0
          obtain ⟨df, hdf, hg0df⟩ := hg0
          unfold tagSources at hdf
          rw [List.mem_filterMap] at hdf
          obtain ⟨pr, hpr, hprf⟩ := hdf
          by_cases hpe : pr.2.isEmpty
          · rw [if_pos hpe] at hprf
            exact Option.noConfusion hprf
          · rw [if_neg hpe] at hprf
            injection hprf with hdf2
            rw [← hdf2, List.mem_map] at hg0df
            obtain ⟨rec, hrec, hmk⟩ := hg0df
            have hfields : out = prepRecord rec := by
              rw [hout2, ← hmk]
            rw [hfields] at hkv
            obtain ⟨hns, hnm, v0, hv0⟩ := prepRecord_keys kv hkv
            refine ⟨hns, hnm, ?_⟩
            have hsrc : pr.2 ∈ sources := by
              rw [← List.enum_map_snd sources]
              exact List.mem_map_of_mem _ hpr
            exact h pr.2 hsrc rec hrec (kv.1, v0) hv0

/-- C10 (witness): a clean single-record input merges to records without the
bookkeeping keys. -/
theorem c10_outputs_free_witness :
    (∀ src ∈ [[probeScoredA]], ∀ rec ∈ src, ∀ kv ∈ rec, kv.1 ≠ "_priority") ∧
    (∀ out ∈ mergeMatches [[probeScoredA]] "football_data", ∀ kv ∈ out,
      kv.1 ≠ "_source" ∧ kv.1 ≠ "_match_key" ∧ kv.1 ≠ "_priority") :=
  ⟨by decide, c10_outputs_free_of_bookkeeping_keys [[probeScoredA]] "football_data" (by decide)⟩

end FootballML
